import Mathlib

/-!
# Verification of the peridotjs text-command engine

A shallow embedding of the argument-parsing, typed-resolution and
subcommand-dispatch engine of the peridotjs framework, together with
theorems settling the specification claims about it.

Sources embedded:
* `src/unnamed/part_040` — the `PermissionLevel` enum.
* `src/unnamed/part_032` — `createTextCommand` (the subcommand walk, the
  permission / `canRun` gates, the help-flag branch, the default fallback and
  the help chunking loop), `findSubcommand`, `createSubcommand`.
* `src/packages/framework/src/structures/events/text/preTextCommandRun.ts`
  — `globalPreconditions`.
* `src/packages/framework/src/arguments/resolvers/CoreEnum.ts` (second
  document in the file) — `FlagUnorderedStrategy`.
* `src/unnamed/part_010` / `part_011` — `CoreInteger`.
* `src/unnamed/part_043` — `TextCommandRegistry`.

Parts of the engine whose implementation is not present under `src/` (the
`Args` wrapper in `arguments/Parser.ts`, `resolvers/integer.ts`, and the
`@sapphire/lexure` base classes `PrefixedStrategy` / `Parser` /
`ArgumentStream`) are modelled from the specification; every such definition
carries a doc comment starting with `Modelled from the spec:`.
-/

/-! ## Permission levels (src/unnamed/part_040) -/

/-- The `PermissionLevel` enum: BLOCKED = -1, REGULAR = 0, MODERATOR = 1,
ADMINISTRATOR = 2, OWNER = 3. -/
inductive PermissionLevel where
  | BLOCKED
  | REGULAR
  | MODERATOR
  | ADMINISTRATOR
  | OWNER
  deriving DecidableEq, Repr

/-- The numeric value of each `PermissionLevel` enum member. -/
def PermissionLevel.toInt : PermissionLevel → Int
  | .BLOCKED => -1
  | .REGULAR => 0
  | .MODERATOR => 1
  | .ADMINISTRATOR => 2
  | .OWNER => 3

/-! ## User errors (src/packages/framework/src/errors/UserError.ts) -/

/-- The observable data of a `UserError`: a stable identifier, the human
message passed to the `Error` constructor, and the optional context
(defaulting to `null`, here `none`). -/
structure UserErrorModel where
  identifier : String
  message : String
  context : Option String := none
  deriving DecidableEq, Repr

/-! ## Token stream

Modelled from the spec: the `Args` facade (`arguments/Parser.ts`) and the
`@sapphire/lexure` `ArgumentStream` it wraps are not present under `src/`;
spec section 4.3 describes the stream as "a cursor (index) into positionals
plus a stack of saved indices" with `next`/`peek`, `save` (push the current
index), `restore` (pop and reset the index to the checkpoint), `discard`
(pop without resetting) and `finished`. -/
structure StreamState where
  tokens : List String
  cursor : Nat
  saved : List Nat
  deriving DecidableEq, Repr

namespace StreamState

/-- `finished`: true at stream end. -/
def finished (s : StreamState) : Bool :=
  s.tokens.length ≤ s.cursor

/-- `save()`: push the current index (checkpoint). -/
def save (s : StreamState) : StreamState :=
  { s with saved := s.cursor :: s.saved }

/-- `restore()`: pop and reset the index to the checkpoint.  The spec calls a
restore without an outstanding checkpoint invalid (a programmer error); that
branch is modelled as the identity and is reached by no verified trace. -/
def restore (s : StreamState) : StreamState :=
  match s.saved with
  | [] => s
  | c :: rest => { s with cursor := c, saved := rest }

/-- `discard()`: pop without resetting — commits past the checkpoint. -/
def discard (s : StreamState) : StreamState :=
  { s with saved := s.saved.tail }

/-- `next()` / `nextMaybe()`: consume the next positional; an empty-stream
probe returns a miss indicator (`none`) rather than erroring. -/
def next (s : StreamState) : Option String × StreamState :=
  match s.tokens[s.cursor]? with
  | some t => (some t, { s with cursor := s.cursor + 1 })
  | none => (none, s)

/-- `peek()`: inspect the next positional without consuming it. -/
def peek (s : StreamState) : Option String :=
  (s.next).1

end StreamState

/-! ## The subcommand tree (src/unnamed/part_032) -/

/-- The result an invocation's `canRun` predicate settles to: the TypeScript
predicate returns `Promise<boolean | string> | boolean | string`, which runs
to completion before the next dispatch step. -/
inductive CanRunResult where
  | bool (b : Bool)
  | str (s : String)
  deriving DecidableEq, Repr

/-- `Subcommand = ExecutableSubcommand | GroupSubcommand`: the object-literal
discriminated union (`'run' in cmd` vs `'subcommands' in cmd`), rendered as a
tagged variant.  `aliases` left `undefined` is rendered as `[]` (both make
`aliases?.includes(name)` false), `default` left `undefined` as `false`.  A
leaf's `run` function is identified by an opaque `runId`; `canRun` carries
the verdict the predicate returns for the invocation at hand. -/
inductive Subcommand where
  | leaf (name : String) (aliases : List String) (isDefault : Bool)
      (permission : Option PermissionLevel) (canRun : Option CanRunResult)
      (runId : Nat)
  | group (name : String) (aliases : List String) (isDefault : Bool)
      (permission : Option PermissionLevel) (canRun : Option CanRunResult)
      (subcommands : List Subcommand)

namespace Subcommand

/-- The `name` field of either variant. -/
def name : Subcommand → String
  | .leaf n _ _ _ _ _ => n
  | .group n _ _ _ _ _ => n

/-- The `aliases` field of either variant. -/
def aliases : Subcommand → List String
  | .leaf _ a _ _ _ _ => a
  | .group _ a _ _ _ _ => a

/-- The `default` field of either variant. -/
def isDefault : Subcommand → Bool
  | .leaf _ _ d _ _ _ => d
  | .group _ _ d _ _ _ => d

/-- The `permission` field of either variant. -/
def permission : Subcommand → Option PermissionLevel
  | .leaf _ _ _ p _ _ => p
  | .group _ _ _ p _ _ => p

/-- The `canRun` field of either variant. -/
def canRun : Subcommand → Option CanRunResult
  | .leaf _ _ _ _ c _ => c
  | .group _ _ _ _ c _ => c

end Subcommand

/-- `findSubcommand` (src/unnamed/part_032 line 516):
`subcommands.find((cmd) => cmd.name === name || cmd.aliases?.includes(name))`. -/
def findSubcommand (subs : List Subcommand) (name : String) : Option Subcommand :=
  subs.find? (fun cmd => cmd.name == name || cmd.aliases.contains name)

/-- `createSubcommand` (src/unnamed/part_032 line 664): the identity — it
performs no validation of the subcommand it is given. -/
def createSubcommand (command : Subcommand) : Subcommand :=
  command

/-- JavaScript truthiness of an optional `PermissionLevel` value:
`undefined` and the enum member of numeric value `0` (REGULAR) are falsy. -/
def permTruthy : Option PermissionLevel → Bool
  | none => false
  | some p => p.toInt != 0

/-- The numeric value used by `found.permission > commandData.permission`
(only consulted when `permTruthy` holds). -/
def permValue : Option PermissionLevel → Int
  | none => 0
  | some p => p.toInt

/-! ## The dispatcher of `createTextCommand` (src/unnamed/part_032) -/

/-- The error thrown at src/unnamed/part_032 line 572. -/
def insufficientPermissionsError (subName : String) : UserErrorModel :=
  { identifier := "insufficient_permissions"
    message := "You don\x27t have permission to use the `" ++ subName ++ "` subcommand." }

/-- The error thrown at src/unnamed/part_032 line 581 (the `canRun` predicate
returned a string, which becomes the user-facing message). -/
def cannotRunMessageError (canRunMessage : String) : UserErrorModel :=
  { identifier := "cannot_run_subcommand", message := canRunMessage }

/-- The error thrown at src/unnamed/part_032 line 587 (the `canRun` predicate
returned `false`). -/
def cannotRunDefaultError (subName : String) : UserErrorModel :=
  { identifier := "cannot_run_subcommand"
    message := "You cannot use the `" ++ subName ++ "` subcommand." }

/-- The error thrown at src/unnamed/part_032 line 642. -/
def subcommandRequiredError (commandName : String) : UserErrorModel :=
  { identifier := "subcommand_required"
    message := "This command requires a subcommand. Use `" ++ commandName
      ++ " --help` to see available subcommands." }

/-- The error thrown at src/unnamed/part_032 line 655. -/
def invalidSubcommandError (commandName : String) (path : List String) : UserErrorModel :=
  { identifier := "invalid_subcommand"
    message := "Please specify a valid subcommand. Use `" ++ commandName
      ++ (if path.isEmpty then "" else " " ++ String.intercalate " " path)
      ++ " --help` to see available subcommands." }

/-- The loop state reached when the subcommand walk exits normally:
`currentSubcommands`, the stream, `subcommandPath` and `currentSubcommand`. -/
structure WalkDone where
  subs : List Subcommand
  stream : StreamState
  path : List String
  cur : Option Subcommand

/-- The outcome of the subcommand walk: either the loop finished, or a
`UserError` was thrown (carrying the stream state at the moment of the
throw). -/
inductive WalkRes where
  | done (d : WalkDone)
  | threw (e : UserErrorModel) (stream : StreamState)

/-- The `while (!args.finished)` walk of `createTextCommand`
(src/unnamed/part_032 lines 554-605).  One fuel unit is spent per loop
iteration; every iteration that continues consumes one positional, so a fuel
of `tokens.length - cursor` (as supplied by `runDispatch`) is never
exhausted before `finished` holds, and the fuel-0 branch coincides with the
loop's normal exit.

Iteration body: `args.save()`; `args.nextMaybe().unwrapOr(undefined)`; a
missing or falsy (empty-string) token restores and breaks; an unmatched
token restores and breaks; a truthy declared permission greater than the
root command's declared permission throws `insufficient_permissions`; a
`canRun` verdict that is a string throws `cannot_run_subcommand` with that
string, and the verdict `false` throws `cannot_run_subcommand` with the
default message; otherwise `args.discard()`, the token is appended to the
path, and a leaf breaks while a group descends. -/
def walkGo : Nat → PermissionLevel → List Subcommand → StreamState → List String →
    Option Subcommand → WalkRes
  | 0, _, subs, s, path, cur => .done ⟨subs, s, path, cur⟩
  | fuel + 1, cmdPerm, subs, s, path, cur =>
    if s.finished then .done ⟨subs, s, path, cur⟩
    else
      match (s.save).next with
      | (none, s2) => .done ⟨subs, s2.restore, path, cur⟩
      | (some tok, s2) =>
        if tok == "" then .done ⟨subs, s2.restore, path, cur⟩
        else
          match findSubcommand subs tok with
          | none => .done ⟨subs, s2.restore, path, cur⟩
          | some found =>
            if permTruthy found.permission
                && decide (cmdPerm.toInt < permValue found.permission) then
              .threw (insufficientPermissionsError found.name) s2
            else
              match found.canRun with
              | some (.str m) => .threw (cannotRunMessageError m) s2
              | some (.bool false) => .threw (cannotRunDefaultError found.name) s2
              | some (.bool true) | none =>
                let s3 := s2.discard
                let path2 := path ++ [tok]
                match found with
                | .leaf n a d p c r => .done ⟨subs, s3, path2, some (.leaf n a d p c r)⟩
                | .group n a d p c children =>
                    walkGo fuel cmdPerm children s3 path2 (some (.group n a d p c children))

/-- The data of a `GroupTextCommand` consumed by the dispatcher: its declared
name, its declared permission level, and its top-level sibling set. -/
structure GroupCommandModel where
  name : String
  permission : PermissionLevel
  subcommands : List Subcommand

/-- Modelled from the spec: `Args.hasFlags` (`arguments/Parser.ts` is not
under `src/`); the spec says `hasFlags` reads the flag collection directly,
and the dispatcher calls `args.hasFlags('help', 'h')` to test whether either
name was parsed as a flag. -/
def hasHelpFlag (flags : List String) : Bool :=
  flags.contains "help" || flags.contains "h"

/-- The observable outcome of one dispatcher invocation: the matched leaf's
`run` was invoked (with the stream left for its own argument parsing), the
help reply was sent for the resolved path, or a `UserError` was thrown. -/
inductive DispatchOutcome where
  | ran (runId : Nat) (stream : StreamState)
  | help (path : List String)
  | threw (e : UserErrorModel) (stream : StreamState)
  deriving DecidableEq, Repr

/-- `src/unnamed/part_032` lines 649-659: run the found subcommand — a leaf
invokes its `run`, a group throws `invalid_subcommand`. -/
def finishDispatch (commandName : String) (sub : Subcommand) (stream : StreamState)
    (path : List String) : DispatchOutcome :=
  match sub with
  | .leaf _ _ _ _ _ runId => .ran runId stream
  | .group _ _ _ _ _ _ => .threw (invalidSubcommandError commandName path) stream

/-- The `run` function produced by `createTextCommand`
(src/unnamed/part_032 lines 545-660): walk the subcommand tree; then, if the
parsed flags contain `help` or `h`, reply with the generated help and
return; otherwise, if no subcommand was found, fall back to the first
sibling flagged default or throw `subcommand_required`; finally run a leaf
or throw `invalid_subcommand` for a group. -/
def runDispatch (cmd : GroupCommandModel) (flags : List String) (s : StreamState) :
    DispatchOutcome :=
  match walkGo (s.tokens.length - s.cursor) cmd.permission cmd.subcommands s [] none with
  | .threw e st => .threw e st
  | .done d =>
    if hasHelpFlag flags then
      .help d.path
    else
      match d.cur with
      | some sub => finishDispatch cmd.name sub d.stream d.path
      | none =>
        match d.subs.find? (fun c => c.isDefault) with
        | some dft => finishDispatch cmd.name dft d.stream d.path
        | none => .threw (subcommandRequiredError cmd.name) d.stream

/-- Observable: the identifier of the thrown error, if the invocation threw. -/
def DispatchOutcome.thrownId? : DispatchOutcome → Option String
  | .threw e _ => some e.identifier
  | _ => none

/-- Observable: whether some leaf's `run` function was invoked. -/
def DispatchOutcome.isRan : DispatchOutcome → Bool
  | .ran _ _ => true
  | _ => false

/-- Observable: whether the invocation replied with help. -/
def DispatchOutcome.isHelp : DispatchOutcome → Bool
  | .help _ => true
  | _ => false

/-- `onTextCommandAccepted`
(src/packages/framework/src/events/text/messageCreate.ts, second document,
lines 102-146): the command's `run` is executed inside `Result.fromAsync`, so
a thrown `UserError` is caught and carried as a `Result` error value to the
`TextCommandError` event — it never escapes the framework. -/
def onTextCommandAcceptedResult (cmd : GroupCommandModel) (flags : List String)
    (s : StreamState) : Except UserErrorModel DispatchOutcome :=
  match runDispatch cmd flags s with
  | .threw e _ => .error e
  | o => .ok o

/-! ## Read-only stream operations (for the checkpoint laws) -/

/-- An operation from the read-only fragment of the stream interface
(spec 4.3: "any ops using only next/peek"). -/
inductive ReadOp where
  | readNext
  | readPeek
  deriving DecidableEq, Repr

/-- Apply one read-only operation to the stream: `next` keeps its advanced
state, `peek` leaves the state untouched. -/
def applyReadOp (s : StreamState) : ReadOp → StreamState
  | .readNext => (s.next).2
  | .readPeek => s

/-- Apply a sequence of read-only operations in order. -/
def applyReadOps (s : StreamState) (ops : List ReadOp) : StreamState :=
  ops.foldl applyReadOp s

/-! ## Global preconditions
(src/packages/framework/src/structures/events/text/preTextCommandRun.ts) -/

/-- The data `globalPreconditions` consults: whether the message is from a
guild (and its id), the command's `dm` flag (`undefined` rendered `false`),
the command's declared permission level and guild restriction (`none` is
`'global'`), and the caller's resolved permission level (the value
`getPermissionLevel` computes from the fetched member — the platform lookup
itself is outside the engine). -/
structure PreTextPayload where
  inGuild : Bool
  guildId : Option String
  dmAllowed : Bool
  commandPermission : PermissionLevel
  commandGuilds : Option (List String)
  memberLevel : PermissionLevel

/-- `globalPreconditions` (preTextCommandRun.ts lines 31-67): guild-only
check, then the caller's resolved level against the command's declared
permission, then the guild allow-list (bypassed at ADMINISTRATOR or above);
errors are returned as `Result.err` values, never thrown. -/
def globalPreconditions (p : PreTextPayload) : Except UserErrorModel Unit :=
  if !p.inGuild && !p.dmAllowed then
    .error { identifier := "Preconditions.GuildOnly"
             message := "This command can only be used in a server." }
  else if p.memberLevel.toInt < p.commandPermission.toInt then
    .error { identifier := "Preconditions.PermissionLevel"
             message := "You need a higher permission level to use this command." }
  else
    match p.commandGuilds with
    | some guilds =>
      if !guilds.contains (p.guildId.getD "")
          && p.memberLevel.toInt < PermissionLevel.ADMINISTRATOR.toInt then
        .error { identifier := "Preconditions.GuildOnly"
                 message := "This command can only be used in specific servers." }
      else .ok ()
    | none => .ok ()

/-! ## Classifier (FlagUnorderedStrategy, from
src/packages/framework/src/arguments/resolvers/CoreEnum.ts second document,
over a spec-modelled `PrefixedStrategy`) -/

/-- Whether `pre` is a prefix of `l`. -/
def charsPrefix (pre l : List Char) : Bool :=
  match pre, l with
  | [], _ => true
  | _ :: _, [] => false
  | a :: as_, b :: bs => a == b && charsPrefix as_ bs

/-- Whether `sub` occurs as a contiguous substring of `l`. -/
def charsContainsSub (sub l : List Char) : Bool :=
  match l with
  | [] => charsPrefix sub []
  | _ :: rest => charsPrefix sub l || charsContainsSub sub rest

/-- Split `l` at the first occurrence of `sep`, returning the parts before
and after it. -/
def charsSplitFirst (sep : List Char) : List Char → Option (List Char × List Char) :=
  go []
where
  /-- Accumulating scan for the first occurrence of `sep`. -/
  go (acc : List Char) : List Char → Option (List Char × List Char)
    | [] => if charsPrefix sep [] then some (acc.reverse, []) else none
    | c :: rest =>
      if charsPrefix sep (c :: rest) then some (acc.reverse, (c :: rest).drop sep.length)
      else go (c :: acc) rest

/-- Modelled from the spec: `PrefixedStrategy.matchOption` of
`@sapphire/lexure` (a dependency, not under `src/`); spec 4.2: an option is
"prefix + name + separator + value within one piece", and option syntax is
tried before flag syntax because it is the stricter superset pattern. -/
def baseMatchOption (pfxs seps : List String) (s : String) : Option (String × String) :=
  match pfxs.find? (fun p => charsPrefix p.toList s.toList) with
  | none => none
  | some p =>
    let rest := s.toList.drop p.toList.length
    match seps.find? (fun sep => charsContainsSub sep.toList rest) with
    | none => none
    | some sep =>
      match charsSplitFirst sep.toList rest with
      | none => none
      | some (key, value) => some (String.mk key, String.mk value)

/-- Modelled from the spec: `PrefixedStrategy.matchFlag` of
`@sapphire/lexure`; spec 4.2: a flag is "prefix + name only" — a piece whose
remainder contains a separator is option syntax, not a flag. -/
def baseMatchFlag (pfxs seps : List String) (s : String) : Option String :=
  match pfxs.find? (fun p => charsPrefix p.toList s.toList) with
  | none => none
  | some p =>
    let rest := s.toList.drop p.toList.length
    if seps.any (fun sep => charsContainsSub sep.toList rest) then none
    else some (String.mk rest)

/-- The values of `FlagStrategyOptions.flags` / `.options`:
`true`, `false`, or an allow-list of names. -/
inductive FlagsSpec where
  | tru
  | fls
  | listed (names : List String)
  deriving DecidableEq, Repr

/-- `FlagStrategyOptions`: each field optional (`none` means the key is
absent from the declaration). -/
structure StrategyOpts where
  flags : Option FlagsSpec := none
  options : Option FlagsSpec := none
  deriving DecidableEq, Repr

/-- The normalisation `this.flags = flags || []` in the
`FlagUnorderedStrategy` constructor: `false` and an absent value collapse to
the empty allow-list, `true` stays `true`. -/
inductive AllowSpec where
  | all
  | listed (names : List String)
  deriving DecidableEq, Repr

/-- `flags || []` (and `options || []`). -/
def normalizeAllow : Option FlagsSpec → AllowSpec
  | none => .listed []
  | some .fls => .listed []
  | some .tru => .all
  | some (.listed l) => .listed l

/-- A constructed `FlagUnorderedStrategy`: prefixes (default
`['--', '-', '—']`), separators (default `['=', ':']`), and the normalised
flag and option allow-specs. -/
structure StrategyModel where
  pfxs : List String := ["--", "-", "—"]
  seps : List String := ["=", ":"]
  flagsAllow : AllowSpec
  optionsAllow : AllowSpec

/-- `FlagUnorderedStrategy.matchFlag`: the constructor installs
`allowedFlag = always` when `flags === true` and `matchFlag = never` when
the allow-list is empty; otherwise the overridden `matchFlag` keeps a
syntactic match only when `allowedFlag` holds, i.e. the name is in the
allow-list. -/
def stratMatchFlag (st : StrategyModel) (s : String) : Option String :=
  match st.flagsAllow with
  | .all => baseMatchFlag st.pfxs st.seps s
  | .listed [] => none
  | .listed l =>
    match baseMatchFlag st.pfxs st.seps s with
    | some v => if l.contains v then some v else none
    | none => none

/-- `FlagUnorderedStrategy.matchOption`: same filtering for options, keeping
a syntactic match only when the key is allowed. -/
def stratMatchOption (st : StrategyModel) (s : String) : Option (String × String) :=
  match st.optionsAllow with
  | .all => baseMatchOption st.pfxs st.seps s
  | .listed [] => none
  | .listed l =>
    match baseMatchOption st.pfxs st.seps s with
    | some kv => if l.contains kv.1 then some kv else none
    | none => none

/-- `ParsedArguments`: ordered positionals, matched flag names, matched
option key-value pairs. -/
structure ParsedArguments where
  positionals : List String
  flags : List String
  options : List (String × String)
  deriving DecidableEq, Repr

/-- Modelled from the spec: the `@sapphire/lexure` `Parser` loop (a
dependency, not under `src/`); spec 4.2: for each piece try the option
match first, then the flag match, and let everything else fall through to
positional, producing the three independent collections. -/
def classify (st : StrategyModel) (pieces : List String) : ParsedArguments :=
  pieces.foldl
    (fun acc piece =>
      match stratMatchOption st piece with
      | some kv => { acc with options := acc.options ++ [kv] }
      | none =>
        match stratMatchFlag st piece with
        | some f => { acc with flags := acc.flags ++ [f] }
        | none => { acc with positionals := acc.positionals ++ [piece] })
    ⟨[], [], []⟩

/-- The strategy defaulting of `createTextCommand`
(src/unnamed/part_032 lines 539-543):
`{ flags: true, options: true, ...commandData.strategy }` — each key the
declaration supplies overrides the `true` default, an absent declaration
leaves both at `true`. -/
def createTextCommandStrategy (declared : Option StrategyOpts) : StrategyOpts :=
  match declared with
  | none => { flags := some .tru, options := some .tru }
  | some st => { flags := some (st.flags.getD .tru), options := some (st.options.getD .tru) }

/-- Build the `FlagUnorderedStrategy` the dispatcher hands to the parser
from a command's (already defaulted) strategy options, with the default
prefixes and separators. -/
def mkStrategy (opts : StrategyOpts) : StrategyModel :=
  { flagsAllow := normalizeAllow opts.flags, optionsAllow := normalizeAllow opts.options }

/-! ## Integer resolver (src/unnamed/part_010 / part_011, over a
spec-modelled `resolveInteger`) -/

/-- The three `Identifiers` members `CoreInteger` distinguishes. -/
inductive IntegerResolveErr where
  | tooSmall
  | tooLarge
  | parseError
  deriving DecidableEq, Repr

/-- Parse an optionally-signed decimal integer; any other shape (empty,
stray characters, a fractional part) is a miss. -/
def parseDecimalInt (s : String) : Option Int :=
  let digits : List Char → Option Nat := fun l =>
    if l.isEmpty then none
    else
      l.foldl (fun acc? c => acc?.bind (fun acc =>
        if c.isDigit then some (acc * 10 + (c.toNat - 48)) else none)) (some 0)
  match s.toList with
  | '-' :: rest => (digits rest).map (fun n => -(n : Int))
  | l => (digits l).map (fun n => (n : Int))

/-- Modelled from the spec: `resolveInteger` (`resolvers/integer.ts` is not
under `src/`); spec 4.4: numeric parse, inclusive bounds by default, reject
non-numbers, with the three identifiers `CoreInteger` maps
(`ArgumentIntegerError` for a failed parse, `ArgumentIntegerTooSmall` below
the minimum, `ArgumentIntegerTooLarge` above the maximum). -/
def resolveInteger (parameter : String) (minimum maximum : Option Int) :
    Except IntegerResolveErr Int :=
  match parseDecimalInt parameter with
  | none => .error .parseError
  | some v =>
    if (match minimum with | some m => decide (v < m) | none => false) then
      .error .tooSmall
    else if (match maximum with | some m => decide (m < v) | none => false) then
      .error .tooLarge
    else .ok v

/-- The `ArgumentContext` fields the integer resolver consults. -/
structure IntArgumentContext where
  minimum : Option Int := none
  maximum : Option Int := none

/-- The stable identifier string for each error branch, as spelled in the
`Identifiers` enum referenced by `CoreInteger`. -/
def integerErrIdentifier : IntegerResolveErr → String
  | .tooSmall => "ArgumentIntegerTooSmall"
  | .tooLarge => "ArgumentIntegerTooLarge"
  | .parseError => "ArgumentIntegerError"

/-- The per-identifier human messages of `CoreInteger` (src/unnamed/part_010
lines 7-11). -/
def integerErrMessage (e : IntegerResolveErr) (ctx : IntArgumentContext) : String :=
  match e with
  | .tooSmall => "The given number must be greater than "
      ++ (match ctx.minimum with | some m => toString m | none => "undefined") ++ "."
  | .tooLarge => "The given number must be less than "
      ++ (match ctx.maximum with | some m => toString m | none => "undefined") ++ "."
  | .parseError => "The argument did not resolve to a valid number."

/-- The data of the `ArgumentError` value `CoreInteger` builds with
`this.error`: identifier, message, and the offending parameter. -/
structure ArgumentErrorModel where
  identifier : String
  message : String
  parameter : String
  deriving DecidableEq, Repr

/-- `CoreInteger.run` (src/unnamed/part_010 lines 17-27): call
`resolveInteger` with the context's bounds and map each error identifier
into an `ArgumentError` value carrying that identifier and its message —
returned, not thrown. -/
def coreIntegerRun (parameter : String) (ctx : IntArgumentContext) :
    Except ArgumentErrorModel Int :=
  match resolveInteger parameter ctx.minimum ctx.maximum with
  | .ok v => .ok v
  | .error e =>
    .error { identifier := integerErrIdentifier e
             message := integerErrMessage e ctx
             parameter := parameter }

/-- Observable: the identifier of a failed integer resolution, if it failed. -/
def coreIntegerErrId : Except ArgumentErrorModel Int → Option String
  | .error e => some e.identifier
  | .ok _ => none

/-! ## Help chunking (src/unnamed/part_032 lines 611-627) -/

/-- One iteration of the chunking loop: flush the current block when adding
the line would pass 1950 characters, then append the line and a newline. -/
def chunkStep (st : List String × String) (line : String) : List String × String :=
  let flushed := if 1950 < st.2.length + line.length then (st.1 ++ [st.2], "") else st
  (flushed.1, flushed.2 ++ line ++ "\n")

/-- The block-splitting loop of the help branch: fold `chunkStep` over the
help lines and flush a final non-empty block.  The 1950 threshold is a
hard-coded constant ("Discord 2000 char limit"), not a caller-supplied
parameter. -/
def chunkBlocks (helpLines : List String) : List String :=
  let st := helpLines.foldl chunkStep ([], "")
  if st.2 == "" then st.1 else st.1 ++ [st.2]

/-! ## Text command registry (src/unnamed/part_043) -/

/-- The registered form of a text command produced by `createTextCommand`:
its name, aliases and (for a group command) its subcommand tree. -/
structure TextCommandHandlerModel where
  name : String
  aliases : List String
  tree : List Subcommand

/-- Insertion-ordered JS `Map.set`: overwrite in place, or append. -/
def mapSet {α : Type} (m : List (String × α)) (k : String) (v : α) : List (String × α) :=
  if (m.lookup k).isSome then
    m.map (fun kv => if kv.1 == k then (k, v) else kv)
  else m ++ [(k, v)]

/-- `TextCommandRegistry`: the `handlers` name map and the `aliases`
alias-to-name map. -/
structure TextCommandRegistryModel where
  handlers : List (String × TextCommandHandlerModel)
  aliasMap : List (String × String)

/-- The empty registry. -/
def emptyTextCommandRegistry : TextCommandRegistryModel :=
  ⟨[], []⟩

/-- `TextCommandRegistry._register` (src/unnamed/part_043 lines 245-251): set
the handler under its name and each alias under the alias map.  It is total:
no property of the handler — in particular no property of its subcommand
tree — is inspected, and nothing is ever rejected. -/
def registryRegister (r : TextCommandRegistryModel) (h : TextCommandHandlerModel) :
    TextCommandRegistryModel :=
  { handlers := mapSet r.handlers h.name h
    aliasMap := h.aliases.foldl (fun am a => mapSet am a h.name) r.aliasMap }

/-- `TextCommandRegistry.getHandler` (src/unnamed/part_043 lines 287-302):
look up by name, then via the alias map. -/
def registryGetHandler (r : TextCommandRegistryModel) (name : String) :
    Except String TextCommandHandlerModel :=
  match r.handlers.lookup name with
  | some h => .ok h
  | none =>
    match r.aliasMap.lookup name with
    | some primary =>
      match r.handlers.lookup primary with
      | some h => .ok h
      | none => .error ("The handler \x27" ++ name ++ "\x27 does not exist.")
    | none => .error ("The handler \x27" ++ name ++ "\x27 does not exist.")
/-! ## Supporting lemmas -/

theorem StreamState.finished_eq_false {s : StreamState} {tok : String}
    (h : s.tokens[s.cursor]? = some tok) : s.finished = false := by
  have : s.cursor < s.tokens.length := by
    rcases List.getElem?_eq_some.mp h with ⟨hlt, _⟩
    exact hlt
  simp [StreamState.finished]
  omega

theorem walkGo_nomatch {fuel : Nat} {cmdPerm : PermissionLevel} {subs : List Subcommand}
    {s : StreamState} {path : List String} {cur : Option Subcommand} {tok : String}
    (h : s.tokens[s.cursor]? = some tok) (htok : tok ≠ "")
    (hfind : findSubcommand subs tok = none) :
    walkGo (fuel + 1) cmdPerm subs s path cur = .done ⟨subs, s, path, cur⟩ := by
  cases s with
  | mk tokens cursor saved =>
    simp only [walkGo, StreamState.finished_eq_false h, StreamState.save, StreamState.next] at *
    simp [h, htok, hfind, StreamState.restore]

theorem walkGo_gate_perm {fuel : Nat} {cmdPerm : PermissionLevel} {subs : List Subcommand}
    {s : StreamState} {path : List String} {cur : Option Subcommand} {tok : String}
    {found : Subcommand}
    (h : s.tokens[s.cursor]? = some tok) (htok : tok ≠ "")
    (hfind : findSubcommand subs tok = some found)
    (hperm : permTruthy found.permission = true)
    (hgt : cmdPerm.toInt < permValue found.permission) :
    walkGo (fuel + 1) cmdPerm subs s path cur =
      .threw (insufficientPermissionsError found.name)
        ⟨s.tokens, s.cursor + 1, s.cursor :: s.saved⟩ := by
  cases s with
  | mk tokens cursor saved =>
    simp only [walkGo, StreamState.finished_eq_false h, StreamState.save, StreamState.next] at *
    simp [h, htok, hfind, hperm, hgt]

theorem walkGo_pass_leaf {fuel : Nat} {cmdPerm : PermissionLevel} {subs : List Subcommand}
    {s : StreamState} {path : List String} {cur : Option Subcommand} {tok : String}
    {n : String} {a : List String} {d : Bool} {p : Option PermissionLevel}
    {c : Option CanRunResult} {r : Nat}
    (h : s.tokens[s.cursor]? = some tok) (htok : tok ≠ "")
    (hfind : findSubcommand subs tok = some (.leaf n a d p c r))
    (hgate : ¬(permTruthy p = true ∧ cmdPerm.toInt < permValue p))
    (hcan : c = none ∨ c = some (.bool true)) :
    walkGo (fuel + 1) cmdPerm subs s path cur =
      .done ⟨subs, ⟨s.tokens, s.cursor + 1, s.saved⟩, path ++ [tok], some (.leaf n a d p c r)⟩ := by
  cases s with
  | mk tokens cursor saved =>
    simp only [walkGo, StreamState.finished_eq_false h, StreamState.save, StreamState.next] at *
    rcases hcan with hc | hc <;> subst hc <;>
      simp [h, htok, hfind, StreamState.discard, Subcommand.permission, Subcommand.canRun, hgate]

theorem walkGo_pass_group {fuel : Nat} {cmdPerm : PermissionLevel} {subs : List Subcommand}
    {s : StreamState} {path : List String} {cur : Option Subcommand} {tok : String}
    {n : String} {a : List String} {d : Bool} {p : Option PermissionLevel}
    {c : Option CanRunResult} {children : List Subcommand}
    (h : s.tokens[s.cursor]? = some tok) (htok : tok ≠ "")
    (hfind : findSubcommand subs tok = some (.group n a d p c children))
    (hgate : ¬(permTruthy p = true ∧ cmdPerm.toInt < permValue p))
    (hcan : c = none ∨ c = some (.bool true)) :
    walkGo (fuel + 1) cmdPerm subs s path cur =
      walkGo fuel cmdPerm children ⟨s.tokens, s.cursor + 1, s.saved⟩ (path ++ [tok])
        (some (.group n a d p c children)) := by
  cases s with
  | mk tokens cursor saved =>
    simp only [walkGo, StreamState.finished_eq_false h, StreamState.save, StreamState.next] at *
    rcases hcan with hc | hc <;> subst hc <;>
      simp [h, htok, hfind, StreamState.discard, Subcommand.permission, Subcommand.canRun, hgate]

theorem walkGo_finished {fuel : Nat} {cmdPerm : PermissionLevel} {subs : List Subcommand}
    {s : StreamState} {path : List String} {cur : Option Subcommand}
    (h : s.finished = true) :
    walkGo fuel cmdPerm subs s path cur = .done ⟨subs, s, path, cur⟩ := by
  cases fuel <;> simp [walkGo, h]

theorem walkGo_empty_token {fuel : Nat} {cmdPerm : PermissionLevel} {subs : List Subcommand}
    {s : StreamState} {path : List String} {cur : Option Subcommand}
    (h : s.tokens[s.cursor]? = some "") :
    walkGo (fuel + 1) cmdPerm subs s path cur = .done ⟨subs, s, path, cur⟩ := by
  cases s with
  | mk tokens cursor saved =>
    simp only [walkGo, StreamState.finished_eq_false h, StreamState.save, StreamState.next] at *
    simp [h, StreamState.restore]

theorem walkGo_gate_canRun_str {fuel : Nat} {cmdPerm : PermissionLevel}
    {subs : List Subcommand} {s : StreamState} {path : List String} {cur : Option Subcommand}
    {tok : String} {found : Subcommand} {m : String}
    (h : s.tokens[s.cursor]? = some tok) (htok : tok ≠ "")
    (hfind : findSubcommand subs tok = some found)
    (hgate : ¬(permTruthy found.permission = true ∧ cmdPerm.toInt < permValue found.permission))
    (hcan : found.canRun = some (.str m)) :
    walkGo (fuel + 1) cmdPerm subs s path cur =
      .threw (cannotRunMessageError m) ⟨s.tokens, s.cursor + 1, s.cursor :: s.saved⟩ := by
  cases s with
  | mk tokens cursor saved =>
    simp only [walkGo, StreamState.finished_eq_false h, StreamState.save, StreamState.next] at *
    simp [h, htok, hfind, hgate, hcan]

theorem walkGo_gate_canRun_false {fuel : Nat} {cmdPerm : PermissionLevel}
    {subs : List Subcommand} {s : StreamState} {path : List String} {cur : Option Subcommand}
    {tok : String} {found : Subcommand}
    (h : s.tokens[s.cursor]? = some tok) (htok : tok ≠ "")
    (hfind : findSubcommand subs tok = some found)
    (hgate : ¬(permTruthy found.permission = true ∧ cmdPerm.toInt < permValue found.permission))
    (hcan : found.canRun = some (.bool false)) :
    walkGo (fuel + 1) cmdPerm subs s path cur =
      .threw (cannotRunDefaultError found.name) ⟨s.tokens, s.cursor + 1, s.cursor :: s.saved⟩ := by
  cases s with
  | mk tokens cursor saved =>
    simp only [walkGo, StreamState.finished_eq_false h, StreamState.save, StreamState.next] at *
    simp [h, htok, hfind, hgate, hcan]

theorem walkGo_threw_identifier :
    ∀ (fuel : Nat) (cmdPerm : PermissionLevel) (subs : List Subcommand) (s : StreamState)
      (path : List String) (cur : Option Subcommand) (e : UserErrorModel) (st : StreamState),
      walkGo fuel cmdPerm subs s path cur = .threw e st →
      e.identifier = "insufficient_permissions" ∨ e.identifier = "cannot_run_subcommand" := by
  intro fuel
  induction fuel with
  | zero =>
    intro _ _ _ _ _ e st h
    simp [walkGo] at h
  | succ n ih =>
    intro cmdPerm subs s path cur e st
    simp only [walkGo]
    repeat' split
    all_goals intro h
    all_goals
      first
      | exact ih _ _ _ _ _ _ _ h
      | (cases h <;>
          simp [insufficientPermissionsError, cannotRunMessageError, cannotRunDefaultError])

theorem globalPreconditions_perm_le {p : PreTextPayload}
    (h : globalPreconditions p = .ok ()) :
    p.commandPermission.toInt ≤ p.memberLevel.toInt := by
  simp only [globalPreconditions] at h
  repeat' split at h
  all_goals first | omega | (cases h)

theorem applyReadOp_saved (s : StreamState) (op : ReadOp) :
    (applyReadOp s op).saved = s.saved := by
  cases op with
  | readNext =>
    simp only [applyReadOp, StreamState.next]
    split <;> rfl
  | readPeek => rfl

theorem applyReadOp_tokens (s : StreamState) (op : ReadOp) :
    (applyReadOp s op).tokens = s.tokens := by
  cases op with
  | readNext =>
    simp only [applyReadOp, StreamState.next]
    split <;> rfl
  | readPeek => rfl

theorem applyReadOp_set_saved (s : StreamState) (x : List Nat) (op : ReadOp) :
    applyReadOp { s with saved := x } op = { applyReadOp s op with saved := x } := by
  cases op with
  | readNext =>
    simp only [applyReadOp, StreamState.next]
    split <;> rfl
  | readPeek => rfl

theorem applyReadOps_set_saved (ops : List ReadOp) (s : StreamState) (x : List Nat) :
    applyReadOps { s with saved := x } ops = { applyReadOps s ops with saved := x } := by
  induction ops generalizing s with
  | nil => rfl
  | cons op rest ih =>
    simp only [applyReadOps, List.foldl_cons] at *
    rw [applyReadOp_set_saved, ih]

theorem applyReadOps_tokens (ops : List ReadOp) (s : StreamState) :
    (applyReadOps s ops).tokens = s.tokens := by
  induction ops generalizing s with
  | nil => rfl
  | cons op rest ih =>
    simp only [applyReadOps, List.foldl_cons] at *
    rw [ih, applyReadOp_tokens]

theorem applyReadOps_saved (ops : List ReadOp) (s : StreamState) :
    (applyReadOps s ops).saved = s.saved := by
  induction ops generalizing s with
  | nil => rfl
  | cons op rest ih =>
    simp only [applyReadOps, List.foldl_cons] at *
    rw [ih, applyReadOp_saved]

theorem restore_applyReadOps_save (s : StreamState) (ops : List ReadOp) :
    (applyReadOps (s.save) ops).restore = s := by
  have hsave : s.save = { s with saved := s.cursor :: s.saved } := rfl
  rw [hsave, applyReadOps_set_saved]
  simp only [StreamState.restore]
  have ht := applyReadOps_tokens ops s
  cases s with
  | mk tokens cursor saved => simp_all

theorem discard_applyReadOps_save (s : StreamState) (ops : List ReadOp) :
    (applyReadOps (s.save) ops).discard = applyReadOps s ops := by
  have hsave : s.save = { s with saved := s.cursor :: s.saved } := rfl
  rw [hsave, applyReadOps_set_saved]
  simp only [StreamState.discard, List.tail_cons]
  have hs := applyReadOps_saved ops s
  cases hres : applyReadOps s ops with
  | mk tokens cursor saved => simp_all

/-! ## Chunking bound -/

theorem chunk_foldl_bound :
    ∀ (lines blocks : List String) (cur : String),
      (∀ l ∈ lines, l.length ≤ 1950) →
      (∀ b ∈ blocks, b.length ≤ 1951) → cur.length ≤ 1951 →
      (∀ b ∈ (lines.foldl chunkStep (blocks, cur)).1, b.length ≤ 1951) ∧
        (lines.foldl chunkStep (blocks, cur)).2.length ≤ 1951 := by
  intro lines
  induction lines with
  | nil =>
    intro blocks cur _ hb hc
    exact ⟨hb, hc⟩
  | cons l ls ih =>
    intro blocks cur hl hb hc
    have hll : l.length ≤ 1950 := hl l (by simp)
    have hls : ∀ x ∈ ls, x.length ≤ 1950 := fun x hx => hl x (by simp [hx])
    simp only [List.foldl_cons]
    by_cases hcase : 1950 < cur.length + l.length
    · have hstep : chunkStep (blocks, cur) l = (blocks ++ [cur], "" ++ l ++ "\n") := by
        simp [chunkStep, hcase]
      rw [hstep]
      apply ih _ _ hls
      · intro b hbmem
        rcases List.mem_append.mp hbmem with hmem | hmem
        · exact hb b hmem
        · simp only [List.mem_singleton] at hmem
          subst hmem
          exact hc
      · have h1 : ("\n" : String).length = 1 := rfl
        have h0 : ("" : String).length = 0 := rfl
        simp [String.length_append, h1, h0]
        omega
    · have hstep : chunkStep (blocks, cur) l = (blocks, cur ++ l ++ "\n") := by
        simp [chunkStep, hcase]
      rw [hstep]
      apply ih _ _ hls hb
      have h1 : ("\n" : String).length = 1 := rfl
      simp [String.length_append, h1]
      omega

theorem chunkBlocks_bound (lines : List String)
    (hl : ∀ l ∈ lines, l.length ≤ 1950) :
    ∀ b ∈ chunkBlocks lines, b.length ≤ 1951 := by
  have h := chunk_foldl_bound lines [] "" hl (by simp) (by simp)
  intro b hbmem
  simp only [chunkBlocks] at hbmem
  split at hbmem
  · exact h.1 b hbmem
  · rcases List.mem_append.mp hbmem with hmem | hmem
    · exact h.1 b hmem
    · simp only [List.mem_singleton] at hmem
      subst hmem
      exact h.2

/-! ## Classifier lemmas -/

theorem baseMatchFlag_eq_none_of_matchOption {pfxs seps : List String} {s : String}
    {kv : String × String} (h : baseMatchOption pfxs seps s = some kv) :
    baseMatchFlag pfxs seps s = none := by
  cases hp : pfxs.find? (fun p => charsPrefix p.data s.data) with
  | none => simp [baseMatchOption, hp] at h
  | some p =>
    cases hsep : seps.find? (fun sep =>
        charsContainsSub sep.data (List.drop p.length s.data)) with
    | none => simp [baseMatchOption, hp, hsep] at h
    | some sep =>
      have hmem := List.mem_of_find?_eq_some hsep
      have hpred : charsContainsSub sep.data (List.drop p.length s.data) = true := by
        have hfs := List.find?_some hsep
        simpa using hfs
      have hany : (seps.any fun sp =>
          charsContainsSub sp.data (List.drop p.length s.data)) = true :=
        List.any_eq_true.mpr ⟨sep, hmem, by simpa using hpred⟩
      simp [baseMatchFlag, hp, hany]

/-! ## Registry lemmas -/

theorem lookup_map_overwrite {α : Type} (k : String) (v : α) :
    ∀ (m : List (String × α)), (m.lookup k).isSome = true →
      (m.map (fun kv => if kv.1 == k then (k, v) else kv)).lookup k = some v := by
  intro m
  induction m with
  | nil =>
    intro h
    simp [List.lookup] at h
  | cons kv rest ih =>
    intro h
    cases h1 : kv.1 == k with
    | true =>
      simp only [List.map_cons, h1, if_true]
      simp [List.lookup]
    | false =>
      have hne : (k == kv.1) = false := by
        simp at h1 ⊢
        exact fun he => h1 he.symm
      simp only [List.map_cons, h1, if_false]
      simp only [List.lookup, hne]
      apply ih
      simp only [List.lookup, hne] at h
      exact h

theorem lookup_append_single {α : Type} (k : String) (v : α) :
    ∀ (m : List (String × α)), m.lookup k = none → (m ++ [(k, v)]).lookup k = some v := by
  intro m
  induction m with
  | nil => simp [List.lookup]
  | cons kv rest ih =>
    intro h
    cases h1 : (k == kv.1) with
    | true => simp [List.lookup, h1] at h
    | false =>
      simp only [List.cons_append, List.lookup, h1]
      apply ih
      simp only [List.lookup, h1] at h
      exact h

theorem lookup_mapSet {α : Type} (m : List (String × α)) (k : String) (v : α) :
    (mapSet m k v).lookup k = some v := by
  simp only [mapSet]
  split
  · apply lookup_map_overwrite
    assumption
  · apply lookup_append_single
    cases hl : m.lookup k with
    | none => rfl
    | some w => simp_all

theorem runDispatch_threw_identifier (cmd : GroupCommandModel) (flags : List String)
    (s : StreamState) (e : UserErrorModel) (st : StreamState)
    (h : runDispatch cmd flags s = .threw e st) :
    e.identifier = "insufficient_permissions" ∨ e.identifier = "cannot_run_subcommand" ∨
      e.identifier = "subcommand_required" ∨ e.identifier = "invalid_subcommand" := by
  simp only [runDispatch] at h
  repeat' split at h
  all_goals
    first
    | (cases h;
       rcases walkGo_threw_identifier _ _ _ _ _ _ _ _ (by assumption) with h1 | h1 <;> simp [h1])
    | (unfold finishDispatch at h
       repeat' split at h
       all_goals cases h <;> simp [invalidSubcommandError])
    | (cases h <;> simp [subcommandRequiredError])

/-- C1 counterexample: the claim predicts that a caller resolved at OWNER is
accepted by a subcommand requiring MODERATOR (`MODERATOR ≤ OWNER`), but the
code rejects it: the gate compares the subcommand's declared permission with
the ROOT COMMAND's declared permission (`found.permission >
commandData.permission`), not with the caller's resolved level.  Here the
global preconditions pass for the OWNER-level caller, the claim's acceptance
condition holds, and the dispatcher still throws `insufficient_permissions`
without invoking the leaf's run. -/
theorem C1_counterexample :
    globalPreconditions ⟨true, some "g1", false, .REGULAR, none, .OWNER⟩ = .ok () ∧
    PermissionLevel.MODERATOR.toInt ≤ PermissionLevel.OWNER.toInt ∧
    (runDispatch ⟨"git", .REGULAR, [.leaf "mod" [] false (some .MODERATOR) none 7]⟩ []
        ⟨["mod"], 0, []⟩).thrownId? = some "insufficient_permissions" ∧
    (runDispatch ⟨"git", .REGULAR, [.leaf "mod" [] false (some .MODERATOR) none 7]⟩ []
        ⟨["mod"], 0, []⟩).isRan = false := by
  refine ⟨rfl, by decide, rfl, rfl⟩

/-- C1 (amended): the dispatcher's permission gate compares the matched
subcommand's declared permission with the root command's declared permission,
not with the caller's resolved level.  A caller resolved at REGULAR passes
the global precondition only when the command declares at most REGULAR, so a
matched subcommand requiring MODERATOR is always rejected for such a caller
with the `insufficient_permissions` error, and no leaf's run function is
invoked. -/
theorem C1_permission_gate_amended
    {p : PreTextPayload} {cmd : GroupCommandModel} {flags : List String}
    {s : StreamState} {tok : String} {found : Subcommand}
    (hpre : globalPreconditions p = .ok ())
    (hlevel : p.memberLevel = .REGULAR)
    (hcmd : cmd.permission = p.commandPermission)
    (htok0 : s.tokens[s.cursor]? = some tok) (htok : tok ≠ "")
    (hfind : findSubcommand cmd.subcommands tok = some found)
    (hperm : found.permission = some .MODERATOR) :
    (runDispatch cmd flags s).thrownId? = some "insufficient_permissions" ∧
      (runDispatch cmd flags s).isRan = false := by
  have hle := globalPreconditions_perm_le hpre
  rw [hlevel] at hle
  have hgt : cmd.permission.toInt < permValue found.permission := by
    rw [hcmd, hperm]
    simp only [permValue, PermissionLevel.toInt] at *
    omega
  have htruthy : permTruthy found.permission = true := by
    rw [hperm]
    decide
  have hlt : s.cursor < s.tokens.length := (List.getElem?_eq_some.mp htok0).1
  obtain ⟨k, hk⟩ : ∃ k, s.tokens.length - s.cursor = k + 1 :=
    ⟨s.tokens.length - s.cursor - 1, by omega⟩
  have hw := @walkGo_gate_perm k cmd.permission cmd.subcommands s [] none tok found
    htok0 htok hfind htruthy hgt
  have hrun : runDispatch cmd flags s =
      .threw (insufficientPermissionsError found.name)
        ⟨s.tokens, s.cursor + 1, s.cursor :: s.saved⟩ := by
    simp only [runDispatch, hk, hw]
  rw [hrun]
  exact ⟨rfl, rfl⟩

/-- C1 witness: a REGULAR-level caller on a command declaring REGULAR, with a
subcommand requiring MODERATOR, is rejected and the leaf never runs. -/
theorem C1_permission_gate_amended_witness :
    (runDispatch ⟨"git", .REGULAR, [.leaf "mod" [] false (some .MODERATOR) none 7]⟩ []
        ⟨["mod"], 0, []⟩).thrownId? = some "insufficient_permissions" ∧
    (runDispatch ⟨"git", .REGULAR, [.leaf "mod" [] false (some .MODERATOR) none 7]⟩ []
        ⟨["mod"], 0, []⟩).isRan = false :=
  @C1_permission_gate_amended ⟨true, some "g1", false, .REGULAR, none, .REGULAR⟩
    ⟨"git", .REGULAR, [.leaf "mod" [] false (some .MODERATOR) none 7]⟩ []
    ⟨["mod"], 0, []⟩ "mod" (.leaf "mod" [] false (some .MODERATOR) none 7)
    rfl rfl rfl rfl (by decide) rfl rfl

/-- C2 counterexample: the claim says a gate rejection restores the
checkpoint so that the token stays available to the terminal handler.  In
the code a permission-gate rejection throws while the stream still holds the
advanced cursor and the un-popped checkpoint: the walk ends `.threw` with
stream `⟨["mod"], 1, [0]⟩`, not `.done` with the restored `⟨["mod"], 0, []⟩`. -/
theorem C2_counterexample :
    walkGo 1 .REGULAR [.leaf "mod" [] false (some .MODERATOR) none 7] ⟨["mod"], 0, []⟩ [] none =
      .threw (insufficientPermissionsError "mod") ⟨["mod"], 1, [0]⟩ ∧
    (⟨["mod"], 1, [0]⟩ : StreamState) ≠ ⟨["mod"], 0, []⟩ := by
  exact ⟨rfl, by decide⟩

/-- C2 (amended): during the walk, an exhausted stream stops the descent
with the stream untouched; an empty (falsy) token and a token that names no
sibling restore the checkpoint exactly — the walk stops with the stream in
its pre-peek state, the token still available — while every gate rejection
(the permission gate, a `canRun` predicate returning a string, and a
`canRun` predicate returning `false`) aborts the invocation with a thrown
error, leaving the cursor advanced past the token and the checkpoint still
pushed (not restored). -/
theorem C2_checkpoint_amended :
    (∀ (fuel : Nat) (cmdPerm : PermissionLevel) (subs : List Subcommand) (s : StreamState)
        (path : List String) (cur : Option Subcommand),
      s.finished = true →
      walkGo fuel cmdPerm subs s path cur = .done ⟨subs, s, path, cur⟩) ∧
    (∀ (fuel : Nat) (cmdPerm : PermissionLevel) (subs : List Subcommand) (s : StreamState)
        (path : List String) (cur : Option Subcommand),
      s.tokens[s.cursor]? = some "" →
      walkGo (fuel + 1) cmdPerm subs s path cur = .done ⟨subs, s, path, cur⟩) ∧
    (∀ (fuel : Nat) (cmdPerm : PermissionLevel) (subs : List Subcommand) (s : StreamState)
        (path : List String) (cur : Option Subcommand) (tok : String),
      s.tokens[s.cursor]? = some tok → tok ≠ "" → findSubcommand subs tok = none →
      walkGo (fuel + 1) cmdPerm subs s path cur = .done ⟨subs, s, path, cur⟩) ∧
    (∀ (fuel : Nat) (cmdPerm : PermissionLevel) (subs : List Subcommand) (s : StreamState)
        (path : List String) (cur : Option Subcommand) (tok : String) (found : Subcommand),
      s.tokens[s.cursor]? = some tok → tok ≠ "" → findSubcommand subs tok = some found →
      permTruthy found.permission = true → cmdPerm.toInt < permValue found.permission →
      walkGo (fuel + 1) cmdPerm subs s path cur =
        .threw (insufficientPermissionsError found.name)
          ⟨s.tokens, s.cursor + 1, s.cursor :: s.saved⟩) ∧
    (∀ (fuel : Nat) (cmdPerm : PermissionLevel) (subs : List Subcommand) (s : StreamState)
        (path : List String) (cur : Option Subcommand) (tok : String) (found : Subcommand)
        (m : String),
      s.tokens[s.cursor]? = some tok → tok ≠ "" → findSubcommand subs tok = some found →
      ¬(permTruthy found.permission = true ∧ cmdPerm.toInt < permValue found.permission) →
      found.canRun = some (.str m) →
      walkGo (fuel + 1) cmdPerm subs s path cur =
        .threw (cannotRunMessageError m) ⟨s.tokens, s.cursor + 1, s.cursor :: s.saved⟩) ∧
    (∀ (fuel : Nat) (cmdPerm : PermissionLevel) (subs : List Subcommand) (s : StreamState)
        (path : List String) (cur : Option Subcommand) (tok : String) (found : Subcommand),
      s.tokens[s.cursor]? = some tok → tok ≠ "" → findSubcommand subs tok = some found →
      ¬(permTruthy found.permission = true ∧ cmdPerm.toInt < permValue found.permission) →
      found.canRun = some (.bool false) →
      walkGo (fuel + 1) cmdPerm subs s path cur =
        .threw (cannotRunDefaultError found.name)
          ⟨s.tokens, s.cursor + 1, s.cursor :: s.saved⟩) := by
  refine ⟨?_, ?_, ?_, ?_, ?_, ?_⟩
  · intro fuel cmdPerm subs s path cur h1
    exact walkGo_finished h1
  · intro fuel cmdPerm subs s path cur h1
    exact walkGo_empty_token h1
  · intro fuel cmdPerm subs s path cur tok h1 h2 h3
    exact walkGo_nomatch h1 h2 h3
  · intro fuel cmdPerm subs s path cur tok found h1 h2 h3 h4 h5
    exact walkGo_gate_perm h1 h2 h3 h4 h5
  · intro fuel cmdPerm subs s path cur tok found m h1 h2 h3 h4 h5
    exact walkGo_gate_canRun_str h1 h2 h3 h4 h5
  · intro fuel cmdPerm subs s path cur tok found h1 h2 h3 h4 h5
    exact walkGo_gate_canRun_false h1 h2 h3 h4 h5

/-- C2 witness: an exhausted stream and an empty token stop the walk with
the stream untouched; an unmatched token leaves the stream exactly as
before the peek; and all three gate rejections — the permission gate, a
`canRun` string verdict, and a `canRun` false verdict — throw with the
cursor advanced and the checkpoint still pushed. -/
theorem C2_checkpoint_amended_witness :
    walkGo 3 .REGULAR [.leaf "a" [] false none none 1] ⟨[], 0, []⟩ [] none =
      .done ⟨[.leaf "a" [] false none none 1], ⟨[], 0, []⟩, [], none⟩ ∧
    walkGo 1 .REGULAR [.leaf "a" [] false none none 1] ⟨[""], 0, []⟩ [] none =
      .done ⟨[.leaf "a" [] false none none 1], ⟨[""], 0, []⟩, [], none⟩ ∧
    walkGo 1 .REGULAR [.leaf "a" [] false none none 1] ⟨["zzz"], 0, []⟩ [] none =
      .done ⟨[.leaf "a" [] false none none 1], ⟨["zzz"], 0, []⟩, [], none⟩ ∧
    walkGo 1 .REGULAR [.leaf "mod2" [] false (some .MODERATOR) none 7] ⟨["mod2"], 0, []⟩ [] none =
      .threw (insufficientPermissionsError "mod2") ⟨["mod2"], 1, [0]⟩ ∧
    walkGo 1 .REGULAR [.leaf "c1" [] false none (some (.str "not for you")) 8]
        ⟨["c1"], 0, []⟩ [] none =
      .threw (cannotRunMessageError "not for you") ⟨["c1"], 1, [0]⟩ ∧
    walkGo 1 .REGULAR [.leaf "c2" [] false none (some (.bool false)) 9]
        ⟨["c2"], 0, []⟩ [] none =
      .threw (cannotRunDefaultError "c2") ⟨["c2"], 1, [0]⟩ :=
  ⟨C2_checkpoint_amended.1 3 .REGULAR [.leaf "a" [] false none none 1] ⟨[], 0, []⟩ [] none rfl,
   C2_checkpoint_amended.2.1 0 .REGULAR [.leaf "a" [] false none none 1] ⟨[""], 0, []⟩ [] none
      rfl,
   C2_checkpoint_amended.2.2.1 0 .REGULAR [.leaf "a" [] false none none 1] ⟨["zzz"], 0, []⟩
      [] none "zzz" rfl (by decide) rfl,
   C2_checkpoint_amended.2.2.2.1 0 .REGULAR [.leaf "mod2" [] false (some .MODERATOR) none 7]
      ⟨["mod2"], 0, []⟩ [] none "mod2" (.leaf "mod2" [] false (some .MODERATOR) none 7)
      rfl (by decide) rfl (by decide) (by decide),
   C2_checkpoint_amended.2.2.2.2.1 0 .REGULAR
      [.leaf "c1" [] false none (some (.str "not for you")) 8] ⟨["c1"], 0, []⟩ [] none "c1"
      (.leaf "c1" [] false none (some (.str "not for you")) 8) "not for you"
      rfl (by decide) rfl (by decide) rfl,
   C2_checkpoint_amended.2.2.2.2.2 0 .REGULAR
      [.leaf "c2" [] false none (some (.bool false)) 9] ⟨["c2"], 0, []⟩ [] none "c2"
      (.leaf "c2" [] false none (some (.bool false)) 9)
      rfl (by decide) rfl (by decide) rfl⟩

/-- C3 counterexample: the claim predicts that for the sibling set reached
after descending into group `g`, the unmatched token `x` makes dispatch
resolve to the default child leaf `l`.  The code only consults the default
flag when NO subcommand at all was matched, so it instead throws
`invalid_subcommand` and never runs `l`. -/
theorem C3_counterexample :
    runDispatch ⟨"git", .REGULAR, [.group "g" [] false none none [.leaf "l" [] true none none 3]]⟩
        [] ⟨["g", "x"], 0, []⟩
      = .threw (invalidSubcommandError "git" ["g"]) ⟨["g", "x"], 1, []⟩ ∧
    (runDispatch ⟨"git", .REGULAR, [.group "g" [] false none none [.leaf "l" [] true none none 3]]⟩
        [] ⟨["g", "x"], 0, []⟩).isRan = false := by
  exact ⟨rfl, rfl⟩

/-- C3 (amended): the default fallback applies only when the walk matched no
subcommand at all: then the first top-level sibling flagged default is
dispatched with the stream unchanged (zero tokens consumed), and if no
top-level sibling is default the dispatcher throws `subcommand_required`.
When the walk stopped inside a group, the dispatcher throws
`invalid_subcommand` regardless of any default among the group's children. -/
theorem C3_default_fallback_amended :
    (∀ (cmd : GroupCommandModel) (flags : List String) (s : StreamState) (tok : String)
        (dft : Subcommand),
      s.tokens[s.cursor]? = some tok → tok ≠ "" →
      findSubcommand cmd.subcommands tok = none → hasHelpFlag flags = false →
      cmd.subcommands.find? (fun c => c.isDefault) = some dft →
      runDispatch cmd flags s = finishDispatch cmd.name dft s []) ∧
    (∀ (cmd : GroupCommandModel) (flags : List String) (s : StreamState) (tok : String),
      s.tokens[s.cursor]? = some tok → tok ≠ "" →
      findSubcommand cmd.subcommands tok = none → hasHelpFlag flags = false →
      cmd.subcommands.find? (fun c => c.isDefault) = none →
      runDispatch cmd flags s = .threw (subcommandRequiredError cmd.name) s) ∧
    (∀ (cmd : GroupCommandModel) (flags : List String) (s : StreamState) (d : WalkDone)
        (n : String) (a : List String) (b : Bool) (p : Option PermissionLevel)
        (c : Option CanRunResult) (children : List Subcommand),
      walkGo (s.tokens.length - s.cursor) cmd.permission cmd.subcommands s [] none = .done d →
      d.cur = some (.group n a b p c children) → hasHelpFlag flags = false →
      runDispatch cmd flags s = .threw (invalidSubcommandError cmd.name d.path) d.stream) := by
  refine ⟨?_, ?_, ?_⟩
  · intro cmd flags s tok dft h1 h2 h3 h4 h5
    have hlt : s.cursor < s.tokens.length := (List.getElem?_eq_some.mp h1).1
    obtain ⟨k, hk⟩ : ∃ k, s.tokens.length - s.cursor = k + 1 :=
      ⟨s.tokens.length - s.cursor - 1, by omega⟩
    have hw := @walkGo_nomatch k cmd.permission cmd.subcommands s [] none tok h1 h2 h3
    simp only [runDispatch, hk, hw, h4, h5]
    rfl
  · intro cmd flags s tok h1 h2 h3 h4 h5
    have hlt : s.cursor < s.tokens.length := (List.getElem?_eq_some.mp h1).1
    obtain ⟨k, hk⟩ : ∃ k, s.tokens.length - s.cursor = k + 1 :=
      ⟨s.tokens.length - s.cursor - 1, by omega⟩
    have hw := @walkGo_nomatch k cmd.permission cmd.subcommands s [] none tok h1 h2 h3
    simp only [runDispatch, hk, hw, h4, h5]
    rfl
  · intro cmd flags s d n a b p c children hw hcur h4
    simp only [runDispatch, hw, h4, hcur, finishDispatch]
    rfl

/-- C3 witness: sibling set `[a, b(default)]` with an unmatched token
dispatches to `b` consuming zero tokens; with no default it throws
`subcommand_required`; and the nested-group case throws
`invalid_subcommand`. -/
theorem C3_default_fallback_amended_witness :
    runDispatch ⟨"git", .REGULAR, [.leaf "a" [] false none none 1, .leaf "b" [] true none none 2]⟩
        [] ⟨["zzz"], 0, []⟩
      = finishDispatch "git" (.leaf "b" [] true none none 2) ⟨["zzz"], 0, []⟩ [] ∧
    runDispatch ⟨"git", .REGULAR, [.leaf "a" [] false none none 1]⟩ [] ⟨["zzz"], 0, []⟩
      = .threw (subcommandRequiredError "git") ⟨["zzz"], 0, []⟩ ∧
    runDispatch ⟨"git", .REGULAR, [.group "g" [] false none none [.leaf "l" [] true none none 3]]⟩
        [] ⟨["g", "x"], 0, []⟩
      = .threw (invalidSubcommandError "git" ["g"]) ⟨["g", "x"], 1, []⟩ :=
  ⟨C3_default_fallback_amended.1
      ⟨"git", .REGULAR, [.leaf "a" [] false none none 1, .leaf "b" [] true none none 2]⟩ []
      ⟨["zzz"], 0, []⟩ "zzz" (.leaf "b" [] true none none 2) rfl (by decide) rfl rfl rfl,
   C3_default_fallback_amended.2.1
      ⟨"git", .REGULAR, [.leaf "a" [] false none none 1]⟩ [] ⟨["zzz"], 0, []⟩ "zzz"
      rfl (by decide) rfl rfl rfl,
   C3_default_fallback_amended.2.2
      ⟨"git", .REGULAR, [.group "g" [] false none none [.leaf "l" [] true none none 3]]⟩ []
      ⟨["g", "x"], 0, []⟩
      ⟨[.leaf "l" [] true none none 3], ⟨["g", "x"], 1, []⟩, ["g"],
        some (.group "g" [] false none none [.leaf "l" [] true none none 3])⟩
      "g" [] false none none [.leaf "l" [] true none none 3] rfl rfl rfl⟩

/-- C4 counterexample: a tree with two siblings both flagged default is the
claim's canonical malformed tree, yet `createSubcommand` returns it unchanged,
the registry accepts the handler built from it (the malformed handler is
retrievable afterwards — registration never fails), and dispatch on it raises
no error either: it silently runs the first default.  Nothing detects the
malformation at registration time, refuting "detected at registration time
and fails fast". -/
theorem C4_counterexample :
    createSubcommand (.leaf "a" [] true none none 1) = .leaf "a" [] true none none 1 ∧
    registryGetHandler
        (registryRegister emptyTextCommandRegistry
          ⟨"dup", [], [.leaf "a" [] true none none 1, .leaf "b" [] true none none 2]⟩)
        "dup"
      = .ok ⟨"dup", [], [.leaf "a" [] true none none 1, .leaf "b" [] true none none 2]⟩ ∧
    runDispatch ⟨"dup", .REGULAR, [.leaf "a" [] true none none 1, .leaf "b" [] true none none 2]⟩
        [] ⟨[], 0, []⟩
      = .ran 1 ⟨[], 0, []⟩ :=
  ⟨rfl, rfl, rfl⟩

/-- C4 (amended): registration performs no validation of the command tree:
`createSubcommand` is the identity and `TextCommandRegistry._register`
unconditionally stores any handler, which stays retrievable under its name.
Malformed trees are never rejected at registration or at dispatch: a
duplicate alias resolves to the first-listed sibling, and two defaults
resolve to the first-listed default, both without any error. -/
theorem C4_registration_amended :
    (∀ (r : TextCommandRegistryModel) (h : TextCommandHandlerModel),
      registryGetHandler (registryRegister r h) h.name = .ok h) ∧
    (∀ (c : Subcommand), createSubcommand c = c) ∧
    findSubcommand [.leaf "x" ["d"] false none none 1, .leaf "y" ["d"] false none none 2] "d"
      = some (.leaf "x" ["d"] false none none 1) ∧
    runDispatch
        ⟨"dup", .REGULAR, [.leaf "x" ["d"] false none none 1, .leaf "y" ["d"] false none none 2]⟩
        [] ⟨["d"], 0, []⟩
      = .ran 1 ⟨["d"], 1, []⟩ := by
  refine ⟨?_, fun c => rfl, rfl, rfl⟩
  intro r h
  simp only [registryRegister, registryGetHandler, lookup_mapSet]

/-- C5 counterexample: a missing subcommand produces a user-facing
`subcommand_required` error that the dispatcher THROWS (the `.threw` outcome
models the TypeScript `throw new UserError`), refuting "returned as a value
... never thrown". -/
theorem C5_counterexample :
    (runDispatch ⟨"git", .REGULAR, [.leaf "a" [] false none none 1]⟩ []
        ⟨["zzz"], 0, []⟩).thrownId? = some "subcommand_required" := rfl

/-- C5 (amended): every user-facing error carries a stable identifier drawn
from a fixed set.  Argument-validation errors (`CoreInteger.run`) and the
global precondition errors are returned as `Result` values, but the
subcommand gate errors are thrown as `UserError`s; the framework's
`onTextCommandAccepted` wrapper (`Result.fromAsync`) catches each thrown
error and surfaces it as a value. -/
theorem C5_errors_amended :
    (∀ (cmd : GroupCommandModel) (flags : List String) (s : StreamState)
        (e : UserErrorModel) (st : StreamState),
      runDispatch cmd flags s = .threw e st →
        (e.identifier = "insufficient_permissions" ∨ e.identifier = "cannot_run_subcommand" ∨
          e.identifier = "subcommand_required" ∨ e.identifier = "invalid_subcommand") ∧
        onTextCommandAcceptedResult cmd flags s = .error e) ∧
    (∀ (p : PreTextPayload) (e : UserErrorModel),
      globalPreconditions p = .error e →
        e.identifier = "Preconditions.GuildOnly" ∨
          e.identifier = "Preconditions.PermissionLevel") ∧
    (∀ (param : String) (ctx : IntArgumentContext) (err : ArgumentErrorModel),
      coreIntegerRun param ctx = .error err →
        err.identifier = "ArgumentIntegerTooSmall" ∨ err.identifier = "ArgumentIntegerTooLarge" ∨
          err.identifier = "ArgumentIntegerError") := by
  refine ⟨?_, ?_, ?_⟩
  · intro cmd flags s e st h
    refine ⟨runDispatch_threw_identifier cmd flags s e st h, ?_⟩
    simp only [onTextCommandAcceptedResult, h]
  · intro p e h
    simp only [globalPreconditions] at h
    repeat' split at h
    all_goals cases h <;> simp
  · intro param ctx err h
    simp only [coreIntegerRun] at h
    split at h
    · cases h
    · cases h
      rename_i e0 heq
      cases e0 <;> simp [integerErrIdentifier]

/-- C5 witness: the amended claim at concrete inputs — a thrown
`subcommand_required` dispatch error with its wrapper conversion, a
precondition error value, and an integer-validation error value. -/
theorem C5_errors_amended_witness :
    (((subcommandRequiredError "git").identifier = "insufficient_permissions" ∨
        (subcommandRequiredError "git").identifier = "cannot_run_subcommand" ∨
        (subcommandRequiredError "git").identifier = "subcommand_required" ∨
        (subcommandRequiredError "git").identifier = "invalid_subcommand") ∧
      onTextCommandAcceptedResult ⟨"git", .REGULAR, [.leaf "a" [] false none none 1]⟩ []
          ⟨["zzz"], 0, []⟩
        = .error (subcommandRequiredError "git")) ∧
    (UserErrorModel.identifier
        ⟨"Preconditions.PermissionLevel",
          "You need a higher permission level to use this command.", none⟩
        = "Preconditions.GuildOnly" ∨
      UserErrorModel.identifier
        ⟨"Preconditions.PermissionLevel",
          "You need a higher permission level to use this command.", none⟩
        = "Preconditions.PermissionLevel") ∧
    (ArgumentErrorModel.identifier
        ⟨"ArgumentIntegerError", "The argument did not resolve to a valid number.", "abc"⟩
        = "ArgumentIntegerTooSmall" ∨
      ArgumentErrorModel.identifier
        ⟨"ArgumentIntegerError", "The argument did not resolve to a valid number.", "abc"⟩
        = "ArgumentIntegerTooLarge" ∨
      ArgumentErrorModel.identifier
        ⟨"ArgumentIntegerError", "The argument did not resolve to a valid number.", "abc"⟩
        = "ArgumentIntegerError") :=
  ⟨C5_errors_amended.1 ⟨"git", .REGULAR, [.leaf "a" [] false none none 1]⟩ []
      ⟨["zzz"], 0, []⟩ (subcommandRequiredError "git") ⟨["zzz"], 0, []⟩ rfl,
   C5_errors_amended.2.1 ⟨true, some "g1", false, .MODERATOR, none, .REGULAR⟩
      ⟨"Preconditions.PermissionLevel",
        "You need a higher permission level to use this command.", none⟩ rfl,
   C5_errors_amended.2.2 "abc" ⟨some 1, some 10⟩
      ⟨"ArgumentIntegerError", "The argument did not resolve to a valid number.", "abc"⟩ rfl⟩

/-- C6: a piece that syntactically matches a flag whose name is outside the
flag allow-list (and is not an option) is classified positional; a piece that
syntactically matches an option whose key is outside the option allow-list is
classified positional (its separator prevents a flag match); concretely,
with the allow-list `["force"]`, `--force` classifies as flag `force` while
`--other` stays a positional token. -/
theorem C6_allowlist_fallthrough :
    (∀ (st : StrategyModel) (l : List String) (s : String) (nm : String),
      st.flagsAllow = .listed l → stratMatchOption st s = none →
      baseMatchFlag st.pfxs st.seps s = some nm → l.contains nm = false →
      classify st [s] = ⟨[s], [], []⟩) ∧
    (∀ (st : StrategyModel) (l : List String) (s : String) (kv : String × String),
      st.optionsAllow = .listed l → baseMatchOption st.pfxs st.seps s = some kv →
      l.contains kv.1 = false →
      classify st [s] = ⟨[s], [], []⟩) ∧
    classify (mkStrategy (createTextCommandStrategy (some ⟨some (.listed ["force"]), none⟩)))
        ["--force"]
      = ⟨[], ["force"], []⟩ ∧
    classify (mkStrategy (createTextCommandStrategy (some ⟨some (.listed ["force"]), none⟩)))
        ["--other"]
      = ⟨["--other"], [], []⟩ := by
  refine ⟨?_, ?_, by decide, by decide⟩
  · intro st l s nm hflags hopt hbase hcontains
    have hflag : stratMatchFlag st s = none := by
      cases l with
      | nil => simp [stratMatchFlag, hflags]
      | cons a as =>
        simp [stratMatchFlag, hflags, hbase, hcontains]
        simpa using hcontains
    simp [classify, hopt, hflag]
  · intro st l s kv hopts hbase hcontains
    have hopt : stratMatchOption st s = none := by
      cases l with
      | nil => simp [stratMatchOption, hopts]
      | cons a as =>
        simp [stratMatchOption, hopts, hbase, hcontains]
        simpa using hcontains
    have hbflag : baseMatchFlag st.pfxs st.seps s = none :=
      baseMatchFlag_eq_none_of_matchOption hbase
    have hflag : stratMatchFlag st s = none := by
      cases hfa : st.flagsAllow with
      | all => simp [stratMatchFlag, hfa, hbflag]
      | listed fl =>
        cases fl with
        | nil => simp [stratMatchFlag, hfa]
        | cons a as => simp [stratMatchFlag, hfa, hbflag]
    simp [classify, hopt, hflag]

/-- C6 witness: both universal parts instantiated — `--other` falls through
to positional for a flag allow-list missing `other`, and `--other=x` falls
through to positional for an option allow-list missing `other`. -/
theorem C6_allowlist_fallthrough_witness :
    classify (mkStrategy (createTextCommandStrategy (some ⟨some (.listed ["force"]), some .fls⟩)))
        ["--other"]
      = ⟨["--other"], [], []⟩ ∧
    classify (mkStrategy (createTextCommandStrategy (some ⟨some .fls, some (.listed ["user"])⟩)))
        ["--other=x"]
      = ⟨["--other=x"], [], []⟩ :=
  ⟨C6_allowlist_fallthrough.1
      (mkStrategy (createTextCommandStrategy (some ⟨some (.listed ["force"]), some .fls⟩)))
      ["force"] "--other" "other" rfl rfl rfl (by decide),
   C6_allowlist_fallthrough.2.1
      (mkStrategy (createTextCommandStrategy (some ⟨some .fls, some (.listed ["user"])⟩)))
      ["user"] "--other=x" ("other", "x") rfl rfl (by decide)⟩

/-- C7: the integer resolver with context `{minimum: 1, maximum: 10}` accepts
`5` (and both inclusive endpoints `1` and `10`), rejects `0` with
`ArgumentIntegerTooSmall`, `11` with `ArgumentIntegerTooLarge`, and `abc`
with `ArgumentIntegerError`, three pairwise distinct identifiers. -/
theorem C7_integer_bounds :
    coreIntegerRun "5" ⟨some 1, some 10⟩ = .ok 5 ∧
    coreIntegerRun "1" ⟨some 1, some 10⟩ = .ok 1 ∧
    coreIntegerRun "10" ⟨some 1, some 10⟩ = .ok 10 ∧
    coreIntegerErrId (coreIntegerRun "0" ⟨some 1, some 10⟩) = some "ArgumentIntegerTooSmall" ∧
    coreIntegerErrId (coreIntegerRun "11" ⟨some 1, some 10⟩) = some "ArgumentIntegerTooLarge" ∧
    coreIntegerErrId (coreIntegerRun "abc" ⟨some 1, some 10⟩) = some "ArgumentIntegerError" ∧
    integerErrIdentifier .tooSmall ≠ integerErrIdentifier .tooLarge ∧
    integerErrIdentifier .tooSmall ≠ integerErrIdentifier .parseError ∧
    integerErrIdentifier .tooLarge ≠ integerErrIdentifier .parseError :=
  ⟨rfl, rfl, rfl, rfl, rfl, rfl, by decide, by decide, by decide⟩

/-- C8 counterexample: the chunking threshold is the hard-coded constant 1950
(there is no caller-supplied budget parameter), and even that bound is not
respected: a single help line of 1951 characters is emitted as a block of
1952 characters, exceeding 1950. -/
theorem chunkBlocks_single_long (l : String) (hlen : 1950 < l.length) :
    chunkBlocks [l] = ["", "" ++ l ++ "\n"] := by
  have h0 : ("" : String).length = 0 := rfl
  have h1 : ("\n" : String).length = 1 := rfl
  have hcond : 1950 < ("" : String).length + l.length := by
    rw [h0]
    omega
  have hlen2 : ("" ++ l ++ "\n").length = l.length + 1 := by
    rw [String.length_append, String.length_append, h0, h1]
    omega
  have hne : (("" ++ l ++ "\n") == "") = false := by
    rw [beq_eq_false_iff_ne]
    intro hcontra
    have hc := congrArg String.length hcontra
    rw [hlen2, h0] at hc
    omega
  have hstep : List.foldl chunkStep ([], "") [l] = ([""], "" ++ l ++ "\n") := by
    simp only [List.foldl_cons, List.foldl_nil, chunkStep]
    rw [if_pos hcond]
    rfl
  simp only [chunkBlocks, hstep, hne]
  rfl

/-- C8 counterexample: the chunking threshold is the hard-coded constant 1950
(there is no caller-supplied budget parameter), and even that bound is not
respected: a single help line of 1951 characters is emitted as a block of
1952 characters, exceeding 1950. -/
theorem C8_counterexample :
    chunkBlocks [String.mk (List.replicate 1951 'a')] =
      ["", "" ++ String.mk (List.replicate 1951 'a') ++ "\n"] ∧
    ("" ++ String.mk (List.replicate 1951 'a') ++ "\n").length = 1952 ∧
    1950 < 1952 := by
  have hlen : (String.mk (List.replicate 1951 'a')).length = 1951 := by
    simp only [String.length, List.length_replicate]
  refine ⟨chunkBlocks_single_long _ (by rw [hlen]; omega), ?_, by omega⟩
  rw [String.length_append, String.length_append, hlen]
  rfl

/-- C8 (amended): the help output is chunked at the fixed 1950-character
threshold hard-coded for the transport (Discord), not a caller-supplied
budget; whenever every help line is at most 1950 characters long, every
emitted block is at most 1951 characters (threshold plus the trailing
newline). -/
theorem C8_chunk_amended (lines : List String)
    (hl : lines.all (fun l => decide (l.length ≤ 1950)) = true) :
    (chunkBlocks lines).all (fun b => decide (b.length ≤ 1951)) = true := by
  have hl2 : ∀ l ∈ lines, l.length ≤ 1950 := by
    intro l hm
    simpa using List.all_eq_true.mp hl l hm
  apply List.all_eq_true.mpr
  intro b hb
  simpa using chunkBlocks_bound lines hl2 b hb

/-- C8 witness: the amended bound at a concrete help text. -/
theorem C8_chunk_amended_witness :
    (chunkBlocks ["Usage: git remote <subcommand> [options...]", "",
        "Manage remote repositories"]).all
      (fun b => decide (b.length ≤ 1951)) = true :=
  C8_chunk_amended
    ["Usage: git remote <subcommand> [options...]", "", "Manage remote repositories"]
    (by decide)

/-- C9 counterexample: starting from cursor 0 with no checkpoints, the trace
`save; next; save; next; discard; restore` discards the inner checkpoint
(position 1) after committing consumption up to position 2 — and the
remaining outer restore still rewinds the cursor to 0, before the discarded
point, refuting "a discard commits irreversibly — no later restore may
rewind past it". -/
theorem C9_counterexample :
    StreamState.discard
        (applyReadOps (StreamState.save (applyReadOps
          (StreamState.save ⟨["a", "b"], 0, []⟩) [.readNext])) [.readNext])
      = ⟨["a", "b"], 2, [0]⟩ ∧
    StreamState.restore (⟨["a", "b"], 2, [0]⟩ : StreamState) = ⟨["a", "b"], 0, []⟩ ∧
    (0 : Nat) < 1 := by
  decide

/-- C9: the checkpoint round-trip law — `save; <any next/peek ops>; restore`
returns the stream exactly to its pre-save state — and the discard law: a
discard after `save; <next/peek ops>` yields exactly the state the
operations would have produced with no checkpoint, so the discarded
checkpoint itself can never be restored again. -/
theorem C9_checkpoint_laws :
    (∀ (s : StreamState) (ops : List ReadOp), (applyReadOps s.save ops).restore = s) ∧
    (∀ (s : StreamState) (ops : List ReadOp),
      (applyReadOps s.save ops).discard = applyReadOps s ops) :=
  ⟨restore_applyReadOps_save, discard_applyReadOps_save⟩

/-- C10: once the walk has resolved the subcommand path normally, a parsed
`help` or `h` flag makes the dispatcher reply with help for that path —
never invoking a run function, never consulting the default fallback, never
throwing; and `createTextCommand` defaults the strategy to accept every
syntactic flag and option, unless the declaration supplies its own values,
which are kept verbatim. -/
theorem C10_help_flag_and_strategy :
    (∀ (cmd : GroupCommandModel) (flags : List String) (s : StreamState) (d : WalkDone),
      walkGo (s.tokens.length - s.cursor) cmd.permission cmd.subcommands s [] none = .done d →
      hasHelpFlag flags = true →
      runDispatch cmd flags s = .help d.path ∧ (runDispatch cmd flags s).isRan = false ∧
        (runDispatch cmd flags s).thrownId? = none) ∧
    (∀ (piece : String) (nm : String) (kv : String × String),
      (baseMatchFlag ["--", "-", "—"] ["=", ":"] piece = some nm →
        stratMatchFlag (mkStrategy (createTextCommandStrategy none)) piece = some nm) ∧
      (baseMatchOption ["--", "-", "—"] ["=", ":"] piece = some kv →
        stratMatchOption (mkStrategy (createTextCommandStrategy none)) piece = some kv)) ∧
    (∀ (st : StrategyOpts),
      createTextCommandStrategy (some st) =
        ⟨some (st.flags.getD .tru), some (st.options.getD .tru)⟩) := by
  refine ⟨?_, ?_, ?_⟩
  · intro cmd flags s d hw hh
    have hrun : runDispatch cmd flags s = .help d.path := by
      simp only [runDispatch, hw, hh]
      rfl
    rw [hrun]
    exact ⟨rfl, rfl, rfl⟩
  · intro piece nm kv
    constructor
    · intro hb
      simpa [stratMatchFlag, mkStrategy, createTextCommandStrategy, normalizeAllow] using hb
    · intro hb
      simpa [stratMatchOption, mkStrategy, createTextCommandStrategy, normalizeAllow] using hb
  · intro st
    rfl

/-- C10 witness: with the `help` flag parsed, a command whose walk resolves
the path `["a"]` replies with help for that path, runs nothing, throws
nothing; the default strategy accepts the arbitrary flag `--anything` and
option `--user=John`. -/
theorem C10_help_flag_and_strategy_witness :
    (runDispatch ⟨"git", .REGULAR, [.leaf "a" [] false none none 1]⟩ ["help"]
        ⟨["a", "rest"], 0, []⟩ = .help ["a"] ∧
      (runDispatch ⟨"git", .REGULAR, [.leaf "a" [] false none none 1]⟩ ["help"]
        ⟨["a", "rest"], 0, []⟩).isRan = false ∧
      (runDispatch ⟨"git", .REGULAR, [.leaf "a" [] false none none 1]⟩ ["help"]
        ⟨["a", "rest"], 0, []⟩).thrownId? = none) ∧
    stratMatchFlag (mkStrategy (createTextCommandStrategy none)) "--anything"
      = some "anything" ∧
    stratMatchOption (mkStrategy (createTextCommandStrategy none)) "--user=John"
      = some ("user", "John") :=
  ⟨(C10_help_flag_and_strategy.1 ⟨"git", .REGULAR, [.leaf "a" [] false none none 1]⟩ ["help"]
      ⟨["a", "rest"], 0, []⟩
      ⟨[.leaf "a" [] false none none 1], ⟨["a", "rest"], 1, []⟩, ["a"],
        some (.leaf "a" [] false none none 1)⟩ rfl rfl),
   (C10_help_flag_and_strategy.2.1 "--anything" "anything" ("", "")).1 (by decide),
   (C10_help_flag_and_strategy.2.1 "--user=John" "" ("user", "John")).2 (by decide)⟩
